import Mathlib

/-!
Shallow embedding of the biginky image-preparation scripts:
the keep-out map codec (`save_keepout_map`, `read_map_file`, `decode_bitmap`),
the palette distance metric and Atkinson-style quantizer
(`closest_palette_color`, `quantize_atkinson`), the keep-out mask builder
(box mode of `detect_objects_yolo`), and the map analyzer (`analyze_map`).
Machine bytes are modelled as `Nat`, mask cells as `Bool` (the scripts use
0/255 `uint8` values tested with `> 0`), and the floating-point pixel
arithmetic as exact rationals.
-/

/-! ## Keep-out codec: encoder (`save_keepout_map`) -/

/-- The 5 magic bytes b'KOMAP'. -/
def komapMagic : List Nat := [75, 79, 77, 65, 80]

/-- One packed byte of the bitmap: bits of `row` at positions `x .. x+7`,
most significant bit first, bits past the row end left 0 —
the inner `for bit in range(8)` loop of `save_keepout_map`. -/
def packByteAt (row : List Bool) (x : Nat) : Nat :=
  (List.range 8).foldl
    (fun byte bit =>
      if x + bit < row.length ∧ row.getD (x + bit) false then
        byte ||| (1 <<< (7 - bit))
      else byte)
    0

/-- All packed bytes of one row: `for x in range(0, w, 8)` of `save_keepout_map`.
Each row is padded to a whole byte. -/
def packRowBytes (row : List Bool) : List Nat :=
  (List.range ((row.length + 7) / 8)).map (fun i => packByteAt row (8 * i))

/-- The packed bitmap produced by `save_keepout_map`: rows packed one after
another, each padded to a byte boundary. -/
def encodeBitmap (mask : List (List Bool)) : List Nat :=
  (mask.map packRowBytes).flatten

/-- The 16-byte header written by `save_keepout_map`:
magic, version 1, width u16 LE, height u16 LE, 6 reserved zero bytes. -/
def encodeHeader (w h : Nat) : List Nat :=
  komapMagic ++ [1, w % 256, w / 256 % 256, h % 256, h / 256 % 256, 0, 0, 0, 0, 0, 0]

/-- `save_keepout_map`: the full byte sequence written to the .map file
(width and height are taken from the mask's shape). -/
def saveKeepoutMap (mask : List (List Bool)) : List Nat :=
  encodeHeader (mask.headD []).length mask.length ++ encodeBitmap mask

/-! ## Keep-out codec: decoder (`read_map_file`, `decode_bitmap`) -/

/-- How decoding can fail. `badMagic`, `badVersion` and `truncated` are the
`ValueError`s raised by `read_map_file` (the spec's `FormatError`);
`structError` is the `struct.error` escaping from `struct.unpack` when the
stream ends inside the numeric header fields. -/
inductive DecodeErr where
  | badMagic : DecodeErr
  | badVersion : DecodeErr
  | truncated : DecodeErr
  | structError : DecodeErr
deriving DecidableEq, Repr

/-- Which decode failures correspond to the spec's `FormatError`
(a Python `ValueError` raised by `read_map_file` itself). -/
def DecodeErr.isFormatError : DecodeErr → Bool
  | .badMagic => true
  | .badVersion => true
  | .truncated => true
  | .structError => false

/-- The dictionary returned by `read_map_file`, plus the number of extra
trailing bytes it warns about. -/
structure MapFile where
  width : Nat
  height : Nat
  bitmap : List Nat
  extra : Nat
deriving DecidableEq, Repr

/-- `read_map_file` on an in-memory byte stream: sequential reads of magic,
version, width (u16 LE), height (u16 LE), reserved; `struct.unpack` fails on
a stream shorter than 10 bytes before any validity check runs; then the
magic and version checks; then the bitmap read of `(w*h+7)//8` bytes, which
must be complete; trailing bytes only produce a warning (`extra`). -/
def readMapFile (data : List Nat) : Except DecodeErr MapFile :=
  if data.length < 10 then .error .structError
  else
    let magic := data.take 5
    let version := data.getD 5 0
    let width := data.getD 6 0 + 256 * data.getD 7 0
    let height := data.getD 8 0 + 256 * data.getD 9 0
    if magic ≠ komapMagic then .error .badMagic
    else if version ≠ 1 then .error .badVersion
    else
      let bitmapSize := (width * height + 7) / 8
      let bitmapData := (data.drop 16).take bitmapSize
      if bitmapData.length ≠ bitmapSize then .error .truncated
      else .ok ⟨width, height, bitmapData, ((data.drop 16).drop bitmapSize).length⟩

/-- `decode_bitmap`: a full height×width grid; pixel `(y,x)` is keep-out iff
its byte index `(y*width+x)/8` is inside the data and the bit
`7 - (y*width+x) % 8` of that byte is set; bytes beyond the data read as 0. -/
def decodeBitmap (data : List Nat) (width height : Nat) : List (List Bool) :=
  (List.range height).map (fun y =>
    (List.range width).map (fun x =>
      let pixelIdx := y * width + x
      let byteIdx := pixelIdx / 8
      let bitIdx := 7 - pixelIdx % 8
      decide (byteIdx < data.length) && (data.getD byteIdx 0).testBit bitIdx))

/-- Decoding a whole file to a mask: `read_map_file` followed by
`decode_bitmap` (as `analyze_map` does). -/
def decodeMap (data : List Nat) : Except DecodeErr (List (List Bool)) :=
  (readMapFile data).map (fun r => decodeBitmap r.bitmap r.width r.height)

/-! ## Palette and colour distance (`closest_palette_color`) -/

/-- An RGB triple with exact rational channels (the scripts' float pixels). -/
structure Rgb where
  r : ℚ
  g : ℚ
  b : ℚ
deriving DecidableEq, Repr

/-- `PALETTE_COLORS`: black, white, yellow, red, blue, green. -/
def paletteColors : List Rgb :=
  [⟨0, 0, 0⟩, ⟨255, 255, 255⟩, ⟨255, 255, 0⟩, ⟨255, 0, 0⟩, ⟨0, 0, 255⟩, ⟨0, 255, 0⟩]

/-- The luma of a colour: `(r*250 + g*350 + b*400) / (255*1000)`. -/
def lumaOf (c : Rgb) : ℚ :=
  (c.r * 250 + c.g * 350 + c.b * 400) / (255 * 1000)

/-- The distance computed inside `closest_palette_color`:
`1.5 * rgb_dist + 0.60 * luma_dist` with the weighted chroma term and the
squared luma difference. -/
def totalDist (c p : Rgb) : ℚ :=
  let diffR := c.r - p.r
  let diffG := c.g - p.g
  let diffB := c.b - p.b
  let rgbDist :=
    (diffR * diffR * (250/1000) + diffG * diffG * (350/1000) + diffB * diffB * (400/1000))
      * (75/100) / (255 * 255)
  let lumaDiff := lumaOf c - lumaOf p
  (15/10) * rgbDist + (60/100) * (lumaDiff * lumaDiff)

/-- `np.argmin`: the index of the first occurrence of the minimum. -/
def argminIdx : List ℚ → Nat
  | [] => 0
  | [_] => 0
  | d :: e :: ds =>
    let k := argminIdx (e :: ds)
    if (e :: ds).getD k 0 < d then k + 1 else 0

/-- The list of distances from `c` to each palette entry. -/
def paletteDists (c : Rgb) : List ℚ :=
  paletteColors.map (totalDist c)

/-- `closest_palette_color`: arg-min of the distances over the palette. -/
def closestPaletteColor (c : Rgb) : Nat :=
  argminIdx (paletteDists c)

/-! ## Atkinson-style quantizer (`quantize_atkinson`) -/

/-- Componentwise sum of two colours. -/
def Rgb.add (c d : Rgb) : Rgb := ⟨c.r + d.r, c.g + d.g, c.b + d.b⟩

/-- Componentwise difference of two colours. -/
def Rgb.sub (c d : Rgb) : Rgb := ⟨c.r - d.r, c.g - d.g, c.b - d.b⟩

/-- A colour scaled by a rational factor. -/
def Rgb.scale (k : ℚ) (c : Rgb) : Rgb := ⟨k * c.r, k * c.g, k * c.b⟩

/-- One channel of `np.clip(v, 0, 255)`. -/
def clampChan (v : ℚ) : ℚ := max 0 (min 255 v)

/-- One channel of `np.clip(v, 0, 255).astype(int)`: clamp, then truncate
(floor, since the clamped value is non-negative). -/
def clampIntChan (v : ℚ) : ℚ := ((clampChan v).floor : ℚ)

/-- `np.clip(old_pixel, 0, 255).astype(int)` on a whole pixel. -/
def clampRgbInt (c : Rgb) : Rgb := ⟨clampIntChan c.r, clampIntChan c.g, clampIntChan c.b⟩

/-- The spec's "working value clamped to [0,255]" on a whole pixel (plain
clamp, no integer truncation); used to compare the spec's error formula
against the code's. -/
def clampRgb (c : Rgb) : Rgb := ⟨clampChan c.r, clampChan c.g, clampChan c.b⟩

/-- The working image: a row-major grid of rational colour triples. -/
abbrev Grid := List (List Rgb)

/-- Read pixel `(y, x)` of a grid (0 outside the grid). -/
def getPix (g : Grid) (y x : Nat) : Rgb := (g.getD y []).getD x ⟨0, 0, 0⟩

/-- Write pixel `(y, x)` of a grid (no-op outside the grid). -/
def setPix (g : Grid) (y x : Nat) (v : Rgb) : Grid :=
  g.set y ((g.getD y []).set x v)

/-- `working_img[y, x] += err * k`. -/
def addScaled (g : Grid) (y x : Nat) (err : Rgb) (k : ℚ) : Grid :=
  setPix g y x ((getPix g y x).add (Rgb.scale k err))

/-- The `error` variable of `quantize_atkinson` at pixel `(y, x)`:
the (unclamped) working value minus the chosen palette colour; the clamp
is applied only to the argument of `closest_palette_color`. -/
def atkErr (g : Grid) (y x : Nat) : Rgb :=
  let old := getPix g y x
  let idx := closestPaletteColor (clampRgbInt old)
  old.sub (paletteColors.getD idx ⟨0, 0, 0⟩)

/-- The body of the inner loop of `quantize_atkinson` at pixel `(y, x)`:
replace the pixel by its palette colour, then diffuse the error —
1/8 right, 1/8 down-left, 1/4 down, 1/8 down-right, with bounds checks. -/
def atkStep (w h : Nat) (g : Grid) (y x : Nat) : Grid :=
  let old := getPix g y x
  let idx := closestPaletteColor (clampRgbInt old)
  let newPix := paletteColors.getD idx ⟨0, 0, 0⟩
  let err := atkErr g y x
  let g1 := setPix g y x newPix
  let g2 := if x + 1 < w then addScaled g1 y (x + 1) err (1/8) else g1
  if y + 1 < h then
    let g3 := if 1 ≤ x then addScaled g2 (y + 1) (x - 1) err (1/8) else g2
    let g4 := addScaled g3 (y + 1) x err (1/4)
    if x + 1 < w then addScaled g4 (y + 1) (x + 1) err (1/8) else g4
  else g2

/-- Row-major pixel order: `for y in range(h): for x in range(w)`. -/
def rowMajor (w h : Nat) : List (Nat × Nat) :=
  (List.range h).flatMap (fun y => (List.range w).map (fun x => (y, x)))

/-- The double loop of `quantize_atkinson` over the working image. -/
def atkLoop (w h : Nat) (g : Grid) : Grid :=
  (rowMajor w h).foldl (fun g p => atkStep w h g p.1 p.2) g

/-- One channel of the final `np.clip(working_img, 0, 255).astype(np.uint8)`. -/
def clipByte (v : ℚ) : Nat := (clampChan v).floor.toNat

/-- The palette entries as byte triples (`PALETTE_COLORS` as written out). -/
def paletteBytes : List (Nat × Nat × Nat) :=
  [(0, 0, 0), (255, 255, 255), (255, 255, 0), (255, 0, 0), (0, 0, 255), (0, 255, 0)]

/-- `quantize_atkinson`: run the diffusion loop over the image (width and
height from its shape), then clip and truncate every channel to a byte. -/
def quantizeAtkinson (img : Grid) : List (List (Nat × Nat × Nat)) :=
  (atkLoop (img.headD []).length img.length img).map
    (fun row => row.map (fun p => (clipByte p.r, clipByte p.g, clipByte p.b)))

/-! ## Keep-out mask builder (box mode of `detect_objects_yolo`) -/

/-- A detection bounding box, already truncated to integer pixel
coordinates (`int(x1)` etc. on the detector's output). -/
structure Box where
  x1 : Nat
  y1 : Nat
  x2 : Nat
  y2 : Nat
deriving DecidableEq, Repr

/-- The all-safe mask `np.zeros((h, w))`. -/
def zerosMask (w h : Nat) : List (List Bool) :=
  List.replicate h (List.replicate w false)

/-- Mark one expanded detection box:
`x1 = max(0, x1 - margin)`, `y1 = max(0, y1 - margin)` (truncated `Nat`
subtraction), `x2 = min(w, x2 + margin)`, `y2 = min(h, y2 + margin)`,
then `keep_out_mask[y1:y2, x1:x2] = 255`. -/
def markBox (w h margin : Nat) (mask : List (List Bool)) (b : Box) : List (List Bool) :=
  let ex1 := b.x1 - margin
  let ey1 := b.y1 - margin
  let ex2 := min w (b.x2 + margin)
  let ey2 := min h (b.y2 + margin)
  mask.mapIdx (fun y row =>
    row.mapIdx (fun x v =>
      if ey1 ≤ y ∧ y < ey2 ∧ ex1 ≤ x ∧ x < ex2 then true else v))

/-- Box mode of `detect_objects_yolo`: start from an all-safe mask, OR in
every expanded detection box, and return `None` when the detection count is
zero (the mask is discarded in that case, not returned empty). -/
def buildKeepOut (w h margin : Nat) (boxes : List Box) : Option (List (List Bool)) :=
  if boxes.length = 0 then none
  else some (boxes.foldl (markBox w h margin) (zerosMask w h))

/-! ## Map analyzer (`analyze_map`) -/

/-- Read one cell of a boolean mask (safe outside the grid). -/
def maskGet (grid : List (List Bool)) (y x : Nat) : Bool :=
  (grid.getD y []).getD x false

/-- The 4-connected neighbour candidates of a cell (the default structuring
element of `scipy.ndimage.label` on a 2-D array). Truncated `Nat`
subtraction can return the cell itself at the border; the flood fill's
visited check makes that harmless. -/
def neighbors4 (p : Nat × Nat) : List (Nat × Nat) :=
  [(p.1 - 1, p.2), (p.1 + 1, p.2), (p.1, p.2 - 1), (p.1, p.2 + 1)]

/-- Depth-first flood fill collecting one 4-connected component of
foreground cells. Returns the collected component (without duplicates)
and the enlarged visited list. `fuel` bounds the number of stack pops. -/
def floodFill (grid : List (List Bool)) :
    Nat → List (Nat × Nat) → List (Nat × Nat) → List (Nat × Nat) →
    List (Nat × Nat) × List (Nat × Nat)
  | 0, _, visited, acc => (acc.reverse, visited)
  | _ + 1, [], visited, acc => (acc.reverse, visited)
  | fuel + 1, p :: stack, visited, acc =>
    if p ∈ visited ∨ ¬ maskGet grid p.1 p.2 then
      floodFill grid fuel stack visited acc
    else
      floodFill grid fuel (neighbors4 p ++ stack) (p :: visited) (p :: acc)

/-- Connected-component extraction over the mask, components listed in
raster-scan discovery order (the label order of `scipy.ndimage.label`). -/
def scanComponents (grid : List (List Bool)) : List (List (Nat × Nat)) :=
  let h := grid.length
  let w := (grid.headD []).length
  let fuel := 4 * (w * h) + 4
  ((rowMajor w h).foldl
    (fun (st : List (List (Nat × Nat)) × List (Nat × Nat)) p =>
      if maskGet grid p.1 p.2 ∧ p ∉ st.2 then
        let fill := floodFill grid fuel [p] st.2 []
        (st.1 ++ [fill.1], fill.2)
      else st)
    ([], [])).1

/-- A region record of `analyze_map`: axis-aligned bounding box
`(x_min, y_min, x_max, y_max)` plus pixel area. -/
structure Region where
  x1 : Nat
  y1 : Nat
  x2 : Nat
  y2 : Nat
  area : Nat
deriving DecidableEq, Repr

/-- The region of one component: coordinate minima and maxima and the
number of its cells (`coords.min(axis=0)`, `coords.max(axis=0)`,
`len(coords)`). -/
def regionOfComp (comp : List (Nat × Nat)) : Region :=
  let ys := comp.map (fun p => p.1)
  let xs := comp.map (fun p => p.2)
  ⟨xs.foldr min (xs.headD 0), ys.foldr min (ys.headD 0),
   xs.foldr max 0, ys.foldr max 0, comp.length⟩

/-- Insert a region into a list sorted by area descending, before the first
region of equal or smaller area (the stable descending order of Python's
`regions.sort(key=..., reverse=True)`). -/
def insertRegionDesc (r : Region) : List Region → List Region
  | [] => [r]
  | s :: ss => if s.area ≤ r.area then r :: s :: ss else s :: insertRegionDesc r ss

/-- Stable sort of the region list by area, largest first. -/
def sortRegionsDesc (l : List Region) : List Region :=
  l.foldr insertRegionDesc []

/-- The region list of `analyze_map`: one region per nonempty component,
sorted by area descending. -/
def analyzeRegions (grid : List (List Bool)) : List Region :=
  sortRegionsDesc (((scanComponents grid).filter (fun c => c.length ≠ 0)).map regionOfComp)

/-- `np.sum(bitmap > 0)`. -/
def countTrue (grid : List (List Bool)) : Nat :=
  (grid.map (fun row => row.count true)).sum

/-- The statistics computed by `analyze_map`. -/
structure MapStats where
  totalPixels : Nat
  keepOutPixels : Nat
  coverage : ℚ
  regions : List Region
deriving DecidableEq, Repr

/-- `analyze_map` on a decoded header: decode the bitmap, count keep-out
pixels, coverage percentage, and the sorted region list. -/
def analyzeMap (w h : Nat) (bitmapData : List Nat) : MapStats :=
  let bitmap := decodeBitmap bitmapData w h
  let keep := countTrue bitmap
  ⟨w * h, keep, (keep : ℚ) / ((w * h : Nat) : ℚ) * 100, analyzeRegions bitmap⟩


/-! ## Parsed header fields (the locals of `read_map_file`) -/

/-- The width field of a map header: u16 little-endian at bytes 6-7. -/
def hdrWidth (data : List Nat) : Nat := data.getD 6 0 + 256 * data.getD 7 0

/-- The height field of a map header: u16 little-endian at bytes 8-9. -/
def hdrHeight (data : List Nat) : Nat := data.getD 8 0 + 256 * data.getD 9 0

/-- The expected bitmap byte count `(width*height + 7) // 8`. -/
def hdrBitmapSize (data : List Nat) : Nat := (hdrWidth data * hdrHeight data + 7) / 8

/-! ## Well-formedness and processing order -/

/-- A grid with exactly `h` rows, each of width `w` (the shape invariant of
the scripts' numpy arrays). -/
abbrev gridWF (w h : Nat) (g : Grid) : Prop :=
  g.length = h ∧ ∀ row ∈ g, row.length = w

/-- Strict row-major processing order on pixel coordinates `(y, x)`. -/
def beforePix (p q : Nat × Nat) : Prop :=
  p.1 < q.1 ∨ (p.1 = q.1 ∧ p.2 < q.2)

/-! ## Helper lemmas: lists -/

/-- Reading back the cell just written. -/
theorem getD_set_self {α : Type} (l : List α) (i : Nat) (v d : α) (h : i < l.length) :
    (l.set i v).getD i d = v := by
  simp [List.getD_eq_getElem?_getD, List.getElem?_set_self', List.getElem?_eq_getElem h]

/-- Writing one cell leaves every other cell unchanged. -/
theorem getD_set_ne {α : Type} (l : List α) (i j : Nat) (v d : α) (h : i ≠ j) :
    (l.set i v).getD j d = l.getD j d := by
  simp [List.getD_eq_getElem?_getD, List.getElem?_set_ne h]

/-- `getD` on an index past the end returns the default. -/
theorem getD_of_length_le {α : Type} (l : List α) (i : Nat) (d : α) (h : l.length ≤ i) :
    l.getD i d = d := by
  simp [List.getD_eq_getElem?_getD, List.getElem?_eq_none h]

/-- `getD` through a `map`, on an in-range index. -/
theorem getD_map_getElem {α β : Type} (f : α → β) (l : List α) (i : Nat) (d : β)
    (h : i < l.length) :
    (l.map f).getD i d = f l[i] := by
  rw [List.getD_eq_getElem?_getD, List.getElem?_map, List.getElem?_eq_getElem h]
  rfl

/-! ## Helper lemmas: grids -/

theorem gridWF_row_length {w h : Nat} {g : Grid} (hg : gridWF w h g) {y : Nat} (hy : y < h) :
    (g.getD y []).length = w := by
  have hlen : y < g.length := by rw [hg.1]; exact hy
  rw [List.getD_eq_getElem _ _ hlen]
  exact hg.2 _ (List.getElem_mem hlen)

theorem getPix_setPix_self {w h : Nat} (g : Grid) (y x : Nat) (v : Rgb)
    (hg : gridWF w h g) (hy : y < h) (hx : x < w) :
    getPix (setPix g y x v) y x = v := by
  have hlen : y < g.length := by rw [hg.1]; exact hy
  have hrow : (g.getD y []).length = w := gridWF_row_length hg hy
  unfold getPix setPix
  rw [getD_set_self _ _ _ _ hlen, getD_set_self _ _ _ _ (by rw [hrow]; exact hx)]

theorem getPix_setPix_ne (g : Grid) (y x y' x' : Nat) (v : Rgb)
    (hne : y ≠ y' ∨ x ≠ x') :
    getPix (setPix g y x v) y' x' = getPix g y' x' := by
  unfold getPix setPix
  rcases hne with hy | hx
  · rw [getD_set_ne _ _ _ _ _ hy]
  · by_cases hyy : y = y'
    · subst hyy
      by_cases hlen : y < g.length
      · rw [getD_set_self _ _ _ _ hlen, getD_set_ne _ _ _ _ _ hx]
      · rw [List.set_eq_of_length_le (Nat.le_of_not_lt hlen)]
    · rw [getD_set_ne _ _ _ _ _ hyy]

theorem getPix_addScaled_self {w h : Nat} (g : Grid) (y x : Nat) (e : Rgb) (k : ℚ)
    (hg : gridWF w h g) (hy : y < h) (hx : x < w) :
    getPix (addScaled g y x e k) y x = (getPix g y x).add (Rgb.scale k e) :=
  getPix_setPix_self g y x _ hg hy hx

theorem getPix_addScaled_ne (g : Grid) (y x y' x' : Nat) (e : Rgb) (k : ℚ)
    (hne : y ≠ y' ∨ x ≠ x') :
    getPix (addScaled g y x e k) y' x' = getPix g y' x' :=
  getPix_setPix_ne g y x y' x' _ hne

theorem gridWF_setPix {w h : Nat} {g : Grid} (hg : gridWF w h g) (y x : Nat) (v : Rgb) :
    gridWF w h (setPix g y x v) := by
  by_cases hlen : y < g.length
  · constructor
    · rw [setPix, List.length_set, hg.1]
    · intro row hrow
      rcases List.mem_or_eq_of_mem_set hrow with hmem | heq
      · exact hg.2 _ hmem
      · subst heq
        rw [List.length_set, List.getD_eq_getElem _ _ hlen]
        exact hg.2 _ (List.getElem_mem hlen)
  · unfold setPix
    rw [List.set_eq_of_length_le (Nat.le_of_not_lt hlen)]
    exact hg

theorem gridWF_addScaled {w h : Nat} {g : Grid} (hg : gridWF w h g) (y x : Nat)
    (e : Rgb) (k : ℚ) : gridWF w h (addScaled g y x e k) :=
  gridWF_setPix hg y x _

/-! ## Helper lemmas: one diffusion step -/

theorem gridWF_atkStep {w h : Nat} {g : Grid} (hg : gridWF w h g) (y x : Nat) :
    gridWF w h (atkStep w h g y x) := by
  simp only [atkStep]
  generalize paletteColors.getD (closestPaletteColor (clampRgbInt (getPix g y x))) ⟨0, 0, 0⟩ = np
  generalize atkErr g y x = err
  split_ifs <;>
    (repeat first | apply gridWF_addScaled | apply gridWF_setPix) <;>
    exact hg

/-- A diffusion step at `(y, x)` never changes a cell strictly earlier in
row-major order: error flows only forward. -/
theorem atkStep_preserve (w h : Nat) (g : Grid) (y x y' x' : Nat)
    (hlt : y' < y ∨ (y' = y ∧ x' < x)) :
    getPix (atkStep w h g y x) y' x' = getPix g y' x' := by
  simp only [atkStep]
  generalize paletteColors.getD (closestPaletteColor (clampRgbInt (getPix g y x))) ⟨0, 0, 0⟩ = np
  generalize atkErr g y x = err
  split_ifs <;>
    (repeat rw [getPix_addScaled_ne _ _ _ _ _ _ _ (by omega)]) <;>
    rw [getPix_setPix_ne _ _ _ _ _ _ (by omega)]

/-- A diffusion step writes the chosen palette colour into its own cell. -/
theorem atkStep_self {w h : Nat} (g : Grid) (y x : Nat)
    (hg : gridWF w h g) (hy : y < h) (hx : x < w) :
    getPix (atkStep w h g y x) y x =
      paletteColors.getD (closestPaletteColor (clampRgbInt (getPix g y x))) ⟨0, 0, 0⟩ := by
  simp only [atkStep]
  generalize paletteColors.getD (closestPaletteColor (clampRgbInt (getPix g y x))) ⟨0, 0, 0⟩ = np
  generalize atkErr g y x = err
  split_ifs <;>
    (repeat rw [getPix_addScaled_ne _ _ _ _ _ _ _ (by omega)]) <;>
    exact getPix_setPix_self g y x _ hg hy hx

/-- The right neighbour receives exactly 1/8 of the error. -/
theorem atkStep_right {w h : Nat} (g : Grid) (y x : Nat)
    (hg : gridWF w h g) (hy : y < h) (hx1 : x + 1 < w) :
    getPix (atkStep w h g y x) y (x + 1) =
      (getPix g y (x + 1)).add (Rgb.scale (1/8) (atkErr g y x)) := by
  simp only [atkStep]
  generalize paletteColors.getD (closestPaletteColor (clampRgbInt (getPix g y x))) ⟨0, 0, 0⟩ = np
  generalize atkErr g y x = err
  split_ifs <;> first
    | omega
    | ((repeat rw [getPix_addScaled_ne _ _ _ _ _ _ _ (by omega)]);
       rw [getPix_addScaled_self _ _ _ _ _
             (by (repeat first | apply gridWF_addScaled | apply gridWF_setPix); exact hg)
             (by omega) (by omega)];
       (repeat rw [getPix_addScaled_ne _ _ _ _ _ _ _ (by omega)]);
       rw [getPix_setPix_ne _ _ _ _ _ _ (by omega)])

/-- The lower-left neighbour receives exactly 1/8 of the error. -/
theorem atkStep_downLeft {w h : Nat} (g : Grid) (y x : Nat)
    (hg : gridWF w h g) (hy2 : y + 1 < h) (hx : x < w) (hx1 : 1 ≤ x) :
    getPix (atkStep w h g y x) (y + 1) (x - 1) =
      (getPix g (y + 1) (x - 1)).add (Rgb.scale (1/8) (atkErr g y x)) := by
  simp only [atkStep]
  generalize paletteColors.getD (closestPaletteColor (clampRgbInt (getPix g y x))) ⟨0, 0, 0⟩ = np
  generalize atkErr g y x = err
  split_ifs <;> first
    | omega
    | ((repeat rw [getPix_addScaled_ne _ _ _ _ _ _ _ (by omega)]);
       rw [getPix_addScaled_self _ _ _ _ _
             (by (repeat first | apply gridWF_addScaled | apply gridWF_setPix); exact hg)
             (by omega) (by omega)];
       (repeat rw [getPix_addScaled_ne _ _ _ _ _ _ _ (by omega)]);
       rw [getPix_setPix_ne _ _ _ _ _ _ (by omega)])

/-- The neighbour one row straight down receives 1/4 of the error. -/
theorem atkStep_down {w h : Nat} (g : Grid) (y x : Nat)
    (hg : gridWF w h g) (hy2 : y + 1 < h) (hx : x < w) :
    getPix (atkStep w h g y x) (y + 1) x =
      (getPix g (y + 1) x).add (Rgb.scale (1/4) (atkErr g y x)) := by
  simp only [atkStep]
  generalize paletteColors.getD (closestPaletteColor (clampRgbInt (getPix g y x))) ⟨0, 0, 0⟩ = np
  generalize atkErr g y x = err
  split_ifs <;> first
    | omega
    | ((repeat rw [getPix_addScaled_ne _ _ _ _ _ _ _ (by omega)]);
       rw [getPix_addScaled_self _ _ _ _ _
             (by (repeat first | apply gridWF_addScaled | apply gridWF_setPix); exact hg)
             (by omega) (by omega)];
       (repeat rw [getPix_addScaled_ne _ _ _ _ _ _ _ (by omega)]);
       rw [getPix_setPix_ne _ _ _ _ _ _ (by omega)])

/-- The lower-right neighbour receives exactly 1/8 of the error. -/
theorem atkStep_downRight {w h : Nat} (g : Grid) (y x : Nat)
    (hg : gridWF w h g) (hy2 : y + 1 < h) (hx1 : x + 1 < w) :
    getPix (atkStep w h g y x) (y + 1) (x + 1) =
      (getPix g (y + 1) (x + 1)).add (Rgb.scale (1/8) (atkErr g y x)) := by
  simp only [atkStep]
  generalize paletteColors.getD (closestPaletteColor (clampRgbInt (getPix g y x))) ⟨0, 0, 0⟩ = np
  generalize atkErr g y x = err
  split_ifs <;> first
    | omega
    | ((repeat rw [getPix_addScaled_ne _ _ _ _ _ _ _ (by omega)]);
       rw [getPix_addScaled_self _ _ _ _ _
             (by (repeat first | apply gridWF_addScaled | apply gridWF_setPix); exact hg)
             (by omega) (by omega)];
       (repeat rw [getPix_addScaled_ne _ _ _ _ _ _ _ (by omega)]);
       rw [getPix_setPix_ne _ _ _ _ _ _ (by omega)])

/-! ## Helper lemmas: the full diffusion loop -/

theorem gridWF_foldl_atk {w h : Nat} (L : List (Nat × Nat)) {g : Grid}
    (hg : gridWF w h g) :
    gridWF w h (L.foldl (fun g p => atkStep w h g p.1 p.2) g) := by
  induction L generalizing g with
  | nil => exact hg
  | cons q L ih => exact ih (gridWF_atkStep hg q.1 q.2)

/-- Processing only pixels strictly later than `p` leaves `p` unchanged. -/
theorem foldl_atk_preserve (w h : Nat) (L : List (Nat × Nat)) (g : Grid)
    (p : Nat × Nat) (hall : ∀ q ∈ L, beforePix p q) :
    getPix (L.foldl (fun g q => atkStep w h g q.1 q.2) g) p.1 p.2 = getPix g p.1 p.2 := by
  induction L generalizing g with
  | nil => rfl
  | cons q L ih =>
    rw [List.foldl_cons, ih _ (fun r hr => hall r (List.mem_cons_of_mem _ hr))]
    refine atkStep_preserve w h g q.1 q.2 p.1 p.2 ?_
    have := hall q (List.mem_cons_self _ _)
    unfold beforePix at this
    omega

theorem paletteColors_getD_mem (i : Nat) :
    paletteColors.getD i ⟨0, 0, 0⟩ ∈ paletteColors := by
  by_cases hlt : i < paletteColors.length
  · rw [List.getD_eq_getElem _ _ hlt]
    exact List.getElem_mem hlt
  · rw [getD_of_length_le _ _ _ (Nat.le_of_not_lt hlt)]
    simp [paletteColors]

/-- After processing a strictly ordered pixel list containing `p`, the cell
at `p` holds a palette colour and is never modified again. -/
theorem foldl_atk_palette {w h : Nat} (L : List (Nat × Nat)) (g : Grid)
    (p : Nat × Nat) (hg : gridWF w h g) (hp : p ∈ L) (hsort : L.Pairwise beforePix)
    (hy : p.1 < h) (hx : p.2 < w) :
    getPix (L.foldl (fun g q => atkStep w h g q.1 q.2) g) p.1 p.2 ∈ paletteColors := by
  induction L generalizing g with
  | nil => cases hp
  | cons q L ih =>
    rw [List.foldl_cons]
    rcases List.mem_cons.mp hp with heq | hpL
    · subst heq
      rw [foldl_atk_preserve w h L _ p (List.pairwise_cons.mp hsort).1]
      rw [atkStep_self g p.1 p.2 hg hy hx]
      exact paletteColors_getD_mem _
    · exact ih _ (gridWF_atkStep hg q.1 q.2) hpL (List.pairwise_cons.mp hsort).2

theorem rowMajor_pairwise (w h : Nat) : (rowMajor w h).Pairwise beforePix := by
  unfold rowMajor
  rw [List.pairwise_flatMap]
  constructor
  · intro y _
    rw [List.pairwise_map]
    exact (List.pairwise_lt_range w).imp (fun hab => Or.inr ⟨rfl, hab⟩)
  · refine (List.pairwise_lt_range h).imp ?_
    intro y1 y2 h12 p hp q hq
    rcases List.mem_map.mp hp with ⟨x1, _, rfl⟩
    rcases List.mem_map.mp hq with ⟨x2, _, rfl⟩
    exact Or.inl h12

theorem mem_rowMajor {w h y x : Nat} (hy : y < h) (hx : x < w) :
    (y, x) ∈ rowMajor w h := by
  unfold rowMajor
  rw [List.mem_flatMap]
  exact ⟨y, List.mem_range.mpr hy, List.mem_map.mpr ⟨x, List.mem_range.mpr hx, rfl⟩⟩

theorem gridWF_headD_length {w h : Nat} {g : Grid} (hg : gridWF w h g) (hh : 0 < h) :
    (g.headD []).length = w := by
  cases g with
  | nil =>
    have h0 := hg.1
    simp only [List.length_nil] at h0
    omega
  | cons row rest => exact hg.2 row (List.mem_cons_self _ _)

/-- Every pixel of the quantized output is one of the six palette byte
triples: the cell is set to its palette colour when processed, later steps
only touch strictly later cells, and the final clip fixes palette values. -/
theorem quantize_pixel_palette {w h : Nat} (img : Grid) (hwf : gridWF w h img)
    (y x : Nat) (hy : y < h) (hx : x < w) :
    ((quantizeAtkinson img).getD y []).getD x (0, 0, 0) ∈ paletteBytes := by
  have hw0 : (img.headD []).length = w := gridWF_headD_length hwf (by omega)
  have hh0 : img.length = h := hwf.1
  unfold quantizeAtkinson
  rw [hw0, hh0]
  have hG : gridWF w h (atkLoop w h img) := gridWF_foldl_atk _ hwf
  have hmem : getPix (atkLoop w h img) y x ∈ paletteColors := by
    unfold atkLoop
    exact foldl_atk_palette (rowMajor w h) img (y, x) hwf
      (mem_rowMajor hy hx) (rowMajor_pairwise w h) hy hx
  have hylen : y < (atkLoop w h img).length := by rw [hG.1]; exact hy
  have hxlen : x < ((atkLoop w h img).getD y []).length := by
    rw [gridWF_row_length hG hy]; exact hx
  have hxl3 : x < (atkLoop w h img)[y].length := by
    rw [List.getD_eq_getElem _ _ hylen] at hxlen; exact hxlen
  rw [getD_map_getElem _ _ _ _ hylen]
  rw [getD_map_getElem _ _ _ _ hxl3]
  have hpix : (atkLoop w h img)[y][x] = getPix (atkLoop w h img) y x := by
    unfold getPix
    rw [List.getD_eq_getElem _ _ hylen]
    rw [List.getD_eq_getElem _ _ hxl3]
  rw [hpix]
  simp only [paletteColors, List.mem_cons, List.not_mem_nil, or_false] at hmem
  rcases hmem with hc | hc | hc | hc | hc | hc <;> rw [hc] <;> decide

/-! ## Helper lemmas: arg-min (tie-breaking of `np.argmin`) -/

theorem argminIdx_lt_length : ∀ (l : List ℚ), l ≠ [] → argminIdx l < l.length
  | [], h => absurd rfl h
  | [_], _ => Nat.zero_lt_one
  | d :: e :: ds, _ => by
    have ih := argminIdx_lt_length (e :: ds) (by simp)
    simp only [argminIdx, List.length_cons] at ih ⊢
    split_ifs <;> omega

theorem argminIdx_le : ∀ (l : List ℚ) (j : Nat), j < l.length →
    l.getD (argminIdx l) 0 ≤ l.getD j 0
  | [], j, h => by simp at h
  | [d], j, h => by
    have hj : j = 0 := by simpa using Nat.lt_one_iff.mp (by simpa using h)
    subst hj
    simp [argminIdx]
  | d :: e :: ds, j, h => by
    simp only [argminIdx]
    split_ifs with hc
    · cases j with
      | zero =>
        simpa [List.getD_cons_succ, List.getD_cons_zero] using le_of_lt hc
      | succ j' =>
        have hj' : j' < (e :: ds).length := by simpa using h
        simpa [List.getD_cons_succ] using argminIdx_le (e :: ds) j' hj'
    · cases j with
      | zero => simp
      | succ j' =>
        have hj' : j' < (e :: ds).length := by simpa using h
        have h1 : d ≤ (e :: ds).getD (argminIdx (e :: ds)) 0 := not_lt.mp hc
        have h2 := argminIdx_le (e :: ds) j' hj'
        simpa [List.getD_cons_succ, List.getD_cons_zero] using le_trans h1 h2

theorem argminIdx_first : ∀ (l : List ℚ) (j : Nat), j < argminIdx l →
    l.getD j 0 > l.getD (argminIdx l) 0
  | [], j, h => by simp [argminIdx] at h
  | [_], j, h => by simp [argminIdx] at h
  | d :: e :: ds, j, h => by
    simp only [argminIdx] at h ⊢
    split_ifs with hc
    · rw [if_pos hc] at h
      cases j with
      | zero =>
        simpa [List.getD_cons_succ, List.getD_cons_zero] using hc
      | succ j' =>
        have := argminIdx_first (e :: ds) j' (by omega)
        simpa [List.getD_cons_succ] using this
    · rw [if_neg hc] at h
      omega

/-! ## Helper lemmas: descending region sort -/

theorem mem_insertRegionDesc (r a : Region) : ∀ (l : List Region),
    a ∈ insertRegionDesc r l → a = r ∨ a ∈ l
  | [], h => by simpa [insertRegionDesc] using h
  | s :: ss, h => by
    simp only [insertRegionDesc] at h
    split_ifs at h with hc
    · rcases List.mem_cons.mp h with h1 | h2
      · exact Or.inl h1
      · exact Or.inr h2
    · rcases List.mem_cons.mp h with h1 | h2
      · exact Or.inr (by simp [h1])
      · rcases mem_insertRegionDesc r a ss h2 with h3 | h3
        · exact Or.inl h3
        · exact Or.inr (List.mem_cons_of_mem _ h3)

theorem pairwise_insertRegionDesc (r : Region) : ∀ (l : List Region),
    List.Pairwise (fun a b => b.area ≤ a.area) l →
    List.Pairwise (fun a b => b.area ≤ a.area) (insertRegionDesc r l)
  | [], _ => List.pairwise_singleton _ _
  | s :: ss, hp => by
    rcases List.pairwise_cons.mp hp with ⟨hs, hss⟩
    simp only [insertRegionDesc]
    split_ifs with hc
    · refine List.pairwise_cons.mpr ⟨?_, hp⟩
      intro b hb
      rcases List.mem_cons.mp hb with rfl | hbss
      · exact hc
      · exact le_trans (hs b hbss) hc
    · refine List.pairwise_cons.mpr ⟨?_, pairwise_insertRegionDesc r ss hss⟩
      intro b hb
      rcases mem_insertRegionDesc r b ss hb with rfl | hbss
      · omega
      · exact hs b hbss

/-- The region list produced by the stable insertion sort is ordered by
area, largest first. -/
theorem pairwise_sortRegionsDesc (l : List Region) :
    List.Pairwise (fun a b => b.area ≤ a.area) (sortRegionsDesc l) := by
  unfold sortRegionsDesc
  induction l with
  | nil => exact List.Pairwise.nil
  | cons r l ih => exact pairwise_insertRegionDesc r _ ih

/-! ## Helper lemmas: decoder case analysis -/

/-- Complete behaviour of `read_map_file` on streams long enough for all
header unpacks (10 bytes or more): bad magic, bad version, incomplete
bitmap, or success with trailing bytes counted and ignored. -/
theorem readMapFile_cases (data : List Nat) (h10 : 10 ≤ data.length) :
    (data.take 5 ≠ komapMagic → readMapFile data = .error .badMagic) ∧
    (data.take 5 = komapMagic → data.getD 5 0 ≠ 1 →
      readMapFile data = .error .badVersion) ∧
    (data.take 5 = komapMagic → data.getD 5 0 = 1 →
      data.length - 16 < hdrBitmapSize data →
      readMapFile data = .error .truncated) ∧
    (data.take 5 = komapMagic → data.getD 5 0 = 1 →
      hdrBitmapSize data ≤ data.length - 16 →
      readMapFile data = .ok ⟨hdrWidth data, hdrHeight data,
        (data.drop 16).take (hdrBitmapSize data),
        data.length - 16 - hdrBitmapSize data⟩) := by
  simp only [readMapFile]
  rw [if_neg (by omega)]
  refine ⟨?_, ?_, ?_, ?_⟩
  · intro hmag
    rw [if_pos hmag]
  · intro hmag hver
    rw [if_neg (by simp [hmag]), if_pos hver]
  · intro hmag hver hshort
    simp only [hdrBitmapSize, hdrWidth, hdrHeight] at hshort
    rw [if_neg (by simp [hmag]), if_neg (by simpa using hver),
      if_pos (by rw [ne_eq, List.length_take, List.length_drop]; omega)]
  · intro hmag hver hlong
    simp only [hdrBitmapSize, hdrWidth, hdrHeight] at hlong
    rw [if_neg (by simp [hmag]), if_neg (by simpa using hver),
      if_neg (by rw [ne_eq, not_not, List.length_take, List.length_drop]; omega)]
    simp only [hdrBitmapSize, hdrWidth, hdrHeight, List.length_drop, Except.ok.injEq,
      MapFile.mk.injEq, true_and, and_true]

/-! ## Claim theorems -/

/-- C1: the claim says `decode(encode(m)) == m` for every mask, including
widths not divisible by 8. The code violates it: the encoder pads every row
to a byte boundary while the decoder assumes flat bit packing, so the 3×2
mask with first column set round-trips to a different mask. -/
theorem C1_roundtrip_failure :
    decodeMap (saveKeepoutMap [[true, false, false], [true, false, false]]) =
      Except.ok [[true, false, false], [false, false, false]] ∧
    ([[true, false, false], [false, false, false]] : List (List Bool)) ≠
      [[true, false, false], [true, false, false]] :=
  ⟨rfl, by decide⟩

/-- C2: the claim says the encoded file is exactly `16 + ceil(w*h/8)` bytes.
For the 3×2 mask the encoder writes 18 bytes (16 + one padded byte per row)
while `16 + ceil(3*2/8) = 17`. -/
theorem C2_size_failure :
    (saveKeepoutMap [[true, false, false], [true, false, false]]).length = 18 ∧
    16 + (3 * 2 + 7) / 8 = 17 ∧ (18 : Nat) ≠ 17 := by
  refine ⟨rfl, by decide, by decide⟩

set_option maxRecDepth 10000 in
/-- C3 counterexample: on the 1×2 grey image, the pixel one row straight
down receives 1/4 of the error, not the claimed 1/8. -/
theorem C3_counterexample :
    getPix (atkStep 1 2 [[⟨100, 100, 100⟩], [⟨0, 0, 0⟩]] 0 0) 1 0 =
      (getPix [[⟨100, 100, 100⟩], [⟨0, 0, 0⟩]] 1 0).add
        (Rgb.scale (1/4) (atkErr [[⟨100, 100, 100⟩], [⟨0, 0, 0⟩]] 0 0)) ∧
    getPix (atkStep 1 2 [[⟨100, 100, 100⟩], [⟨0, 0, 0⟩]] 0 0) 1 0 ≠
      (getPix [[⟨100, 100, 100⟩], [⟨0, 0, 0⟩]] 1 0).add
        (Rgb.scale (1/8) (atkErr [[⟨100, 100, 100⟩], [⟨0, 0, 0⟩]] 0 0)) := by
  constructor
  · with_unfolding_all rfl
  · with_unfolding_all decide

/-- C3 (amended): each in-bounds neighbour among right, down-left and
down-right receives exactly 1/8 of the error, and the pixel one row
straight down receives 1/4 — at most 5/8 of the error is propagated. -/
theorem C3_kernel (w h : Nat) (g : Grid) (y x : Nat)
    (hg : gridWF w h g) (hy : y < h) (hx : x < w) :
    (x + 1 < w → getPix (atkStep w h g y x) y (x + 1) =
      (getPix g y (x + 1)).add (Rgb.scale (1/8) (atkErr g y x))) ∧
    (y + 1 < h → 1 ≤ x → getPix (atkStep w h g y x) (y + 1) (x - 1) =
      (getPix g (y + 1) (x - 1)).add (Rgb.scale (1/8) (atkErr g y x))) ∧
    (y + 1 < h → getPix (atkStep w h g y x) (y + 1) x =
      (getPix g (y + 1) x).add (Rgb.scale (1/4) (atkErr g y x))) ∧
    (y + 1 < h → x + 1 < w → getPix (atkStep w h g y x) (y + 1) (x + 1) =
      (getPix g (y + 1) (x + 1)).add (Rgb.scale (1/8) (atkErr g y x))) :=
  ⟨fun h1 => atkStep_right g y x hg hy h1,
   fun h2 h3 => atkStep_downLeft g y x hg h2 hx h3,
   fun h2 => atkStep_down g y x hg h2 hx,
   fun h2 h1 => atkStep_downRight g y x hg h2 h1⟩

/-- C3 witness: the kernel statement instantiated on a concrete 3×2 image
at pixel (0, 1). -/
theorem C3_kernel_witness :
    (1 + 1 < 3 → getPix (atkStep 3 2 [[⟨10, 10, 10⟩, ⟨20, 20, 20⟩, ⟨30, 30, 30⟩],
        [⟨40, 40, 40⟩, ⟨50, 50, 50⟩, ⟨60, 60, 60⟩]] 0 1) 0 (1 + 1) =
      (getPix [[⟨10, 10, 10⟩, ⟨20, 20, 20⟩, ⟨30, 30, 30⟩],
        [⟨40, 40, 40⟩, ⟨50, 50, 50⟩, ⟨60, 60, 60⟩]] 0 (1 + 1)).add
        (Rgb.scale (1/8) (atkErr [[⟨10, 10, 10⟩, ⟨20, 20, 20⟩, ⟨30, 30, 30⟩],
          [⟨40, 40, 40⟩, ⟨50, 50, 50⟩, ⟨60, 60, 60⟩]] 0 1))) ∧
    (0 + 1 < 2 → 1 ≤ 1 → getPix (atkStep 3 2 [[⟨10, 10, 10⟩, ⟨20, 20, 20⟩, ⟨30, 30, 30⟩],
        [⟨40, 40, 40⟩, ⟨50, 50, 50⟩, ⟨60, 60, 60⟩]] 0 1) (0 + 1) (1 - 1) =
      (getPix [[⟨10, 10, 10⟩, ⟨20, 20, 20⟩, ⟨30, 30, 30⟩],
        [⟨40, 40, 40⟩, ⟨50, 50, 50⟩, ⟨60, 60, 60⟩]] (0 + 1) (1 - 1)).add
        (Rgb.scale (1/8) (atkErr [[⟨10, 10, 10⟩, ⟨20, 20, 20⟩, ⟨30, 30, 30⟩],
          [⟨40, 40, 40⟩, ⟨50, 50, 50⟩, ⟨60, 60, 60⟩]] 0 1))) ∧
    (0 + 1 < 2 → getPix (atkStep 3 2 [[⟨10, 10, 10⟩, ⟨20, 20, 20⟩, ⟨30, 30, 30⟩],
        [⟨40, 40, 40⟩, ⟨50, 50, 50⟩, ⟨60, 60, 60⟩]] 0 1) (0 + 1) 1 =
      (getPix [[⟨10, 10, 10⟩, ⟨20, 20, 20⟩, ⟨30, 30, 30⟩],
        [⟨40, 40, 40⟩, ⟨50, 50, 50⟩, ⟨60, 60, 60⟩]] (0 + 1) 1).add
        (Rgb.scale (1/4) (atkErr [[⟨10, 10, 10⟩, ⟨20, 20, 20⟩, ⟨30, 30, 30⟩],
          [⟨40, 40, 40⟩, ⟨50, 50, 50⟩, ⟨60, 60, 60⟩]] 0 1))) ∧
    (0 + 1 < 2 → 1 + 1 < 3 → getPix (atkStep 3 2 [[⟨10, 10, 10⟩, ⟨20, 20, 20⟩, ⟨30, 30, 30⟩],
        [⟨40, 40, 40⟩, ⟨50, 50, 50⟩, ⟨60, 60, 60⟩]] 0 1) (0 + 1) (1 + 1) =
      (getPix [[⟨10, 10, 10⟩, ⟨20, 20, 20⟩, ⟨30, 30, 30⟩],
        [⟨40, 40, 40⟩, ⟨50, 50, 50⟩, ⟨60, 60, 60⟩]] (0 + 1) (1 + 1)).add
        (Rgb.scale (1/8) (atkErr [[⟨10, 10, 10⟩, ⟨20, 20, 20⟩, ⟨30, 30, 30⟩],
          [⟨40, 40, 40⟩, ⟨50, 50, 50⟩, ⟨60, 60, 60⟩]] 0 1))) :=
  C3_kernel 3 2 [[⟨10, 10, 10⟩, ⟨20, 20, 20⟩, ⟨30, 30, 30⟩],
    [⟨40, 40, 40⟩, ⟨50, 50, 50⟩, ⟨60, 60, 60⟩]] 0 1 (by decide) (by decide) (by decide)

set_option maxRecDepth 20000 in
/-- C4 counterexample: after processing pixel (0,0) of the 1×2 image
((200,200,200) over (10,10,10)), the working value at (1,0) is -15/4 per
channel; the code's propagated error is the unclamped -15/4, while the
claimed `clamped_original - chosen_palette_rgb` is 0. -/
theorem C4_counterexample :
    atkErr (atkStep 1 2 [[⟨200, 200, 200⟩], [⟨10, 10, 10⟩]] 0 0) 1 0 =
      ⟨-15/4, -15/4, -15/4⟩ ∧
    (clampRgb (getPix (atkStep 1 2 [[⟨200, 200, 200⟩], [⟨10, 10, 10⟩]] 0 0) 1 0)).sub
      (paletteColors.getD
        (closestPaletteColor (clampRgbInt
          (getPix (atkStep 1 2 [[⟨200, 200, 200⟩], [⟨10, 10, 10⟩]] 0 0) 1 0)))
        ⟨0, 0, 0⟩) = ⟨0, 0, 0⟩ ∧
    (⟨-15/4, -15/4, -15/4⟩ : Rgb) ≠ ⟨0, 0, 0⟩ := by
  refine ⟨?_, ?_, ?_⟩
  · with_unfolding_all rfl
  · with_unfolding_all rfl
  · with_unfolding_all decide

/-- C4 (amended): the error propagated to the neighbour one row down is
1/4 of the unclamped working value minus the chosen palette colour; the
clamp applies only to the nearest-colour lookup, not to the error. -/
theorem C4_error_unclamped (w h : Nat) (g : Grid) (y x : Nat)
    (hg : gridWF w h g) (hy2 : y + 1 < h) (hx : x < w) :
    getPix (atkStep w h g y x) (y + 1) x =
      (getPix g (y + 1) x).add (Rgb.scale (1/4)
        ((getPix g y x).sub (paletteColors.getD
          (closestPaletteColor (clampRgbInt (getPix g y x))) ⟨0, 0, 0⟩))) :=
  atkStep_down g y x hg hy2 hx

/-- C4 witness: the amended error formula instantiated on the concrete
1×2 image. -/
theorem C4_error_unclamped_witness :
    getPix (atkStep 1 2 [[⟨200, 200, 200⟩], [⟨10, 10, 10⟩]] 0 0) (0 + 1) 0 =
      (getPix [[⟨200, 200, 200⟩], [⟨10, 10, 10⟩]] (0 + 1) 0).add (Rgb.scale (1/4)
        ((getPix [[⟨200, 200, 200⟩], [⟨10, 10, 10⟩]] 0 0).sub (paletteColors.getD
          (closestPaletteColor (clampRgbInt (getPix [[⟨200, 200, 200⟩], [⟨10, 10, 10⟩]] 0 0)))
          ⟨0, 0, 0⟩))) :=
  C4_error_unclamped 1 2 [[⟨200, 200, 200⟩], [⟨10, 10, 10⟩]] 0 0
    (by decide) (by decide) (by decide)

set_option maxRecDepth 20000 in
/-- C5: a colour equal to a palette entry maps to that entry's index with
distance 0, the returned index is always in range and attains the minimal
distance, and every index before it has strictly larger distance (so ties
go to the lowest index). -/
theorem C5_nearest (c : Rgb) :
    (closestPaletteColor (paletteColors.getD 0 ⟨0, 0, 0⟩) = 0 ∧
     closestPaletteColor (paletteColors.getD 1 ⟨0, 0, 0⟩) = 1 ∧
     closestPaletteColor (paletteColors.getD 2 ⟨0, 0, 0⟩) = 2 ∧
     closestPaletteColor (paletteColors.getD 3 ⟨0, 0, 0⟩) = 3 ∧
     closestPaletteColor (paletteColors.getD 4 ⟨0, 0, 0⟩) = 4 ∧
     closestPaletteColor (paletteColors.getD 5 ⟨0, 0, 0⟩) = 5) ∧
    (∀ i, i < 6 →
      totalDist (paletteColors.getD i ⟨0, 0, 0⟩) (paletteColors.getD i ⟨0, 0, 0⟩) = 0) ∧
    closestPaletteColor c < 6 ∧
    (∀ j, j < 6 →
      (paletteDists c).getD (closestPaletteColor c) 0 ≤ (paletteDists c).getD j 0) ∧
    (∀ j, j < closestPaletteColor c →
      (paletteDists c).getD j 0 > (paletteDists c).getD (closestPaletteColor c) 0) := by
  refine ⟨?_, ?_, ?_, ?_, ?_⟩
  · refine ⟨?_, ?_, ?_, ?_, ?_, ?_⟩ <;> with_unfolding_all rfl
  · intro i hi
    interval_cases i <;> with_unfolding_all rfl
  · have hne : paletteDists c ≠ [] := by simp [paletteDists, paletteColors]
    have := argminIdx_lt_length (paletteDists c) hne
    have hlen : (paletteDists c).length = 6 := by simp [paletteDists, paletteColors]
    rw [hlen] at this
    exact this
  · intro j hj
    have hlen : (paletteDists c).length = 6 := by simp [paletteDists, paletteColors]
    exact argminIdx_le (paletteDists c) j (by omega)
  · intro j hj
    exact argminIdx_first (paletteDists c) j hj

set_option maxRecDepth 20000 in
/-- C5 witness: the nearest-colour contract instantiated at the pure red
palette entry and at the colour (100,100,100). -/
theorem C5_nearest_witness :
    closestPaletteColor (paletteColors.getD 3 ⟨0, 0, 0⟩) = 3 ∧
    totalDist (paletteColors.getD 3 ⟨0, 0, 0⟩) (paletteColors.getD 3 ⟨0, 0, 0⟩) = 0 ∧
    (paletteDists ⟨100, 100, 100⟩).getD (closestPaletteColor ⟨100, 100, 100⟩) 0 ≤
      (paletteDists ⟨100, 100, 100⟩).getD 0 0 :=
  ⟨(C5_nearest ⟨100, 100, 100⟩).1.2.2.2.1,
   (C5_nearest ⟨100, 100, 100⟩).2.1 3 (by decide),
   (C5_nearest ⟨100, 100, 100⟩).2.2.2.1 0 (by decide)⟩

/-- C6 counterexample: on the 4-byte stream "XOMA" the claim requires a
FormatError for the magic mismatch, but decoding fails inside
`struct.unpack` (a `struct.error`, not a `ValueError`). -/
theorem C6_counterexample :
    readMapFile [88, 79, 77, 65] = Except.error DecodeErr.structError ∧
    DecodeErr.structError.isFormatError = false :=
  ⟨rfl, rfl⟩

/-- C6 (amended): on streams of at least 10 bytes (all header unpacks
succeed), decode fails with FormatError exactly on bad magic, bad version
or an incomplete bitmap, and succeeds while merely counting (warning) and
ignoring any extra trailing bytes; shorter streams fail with a struct
unpack error instead. -/
theorem C6_decode_errors (data : List Nat) (h10 : 10 ≤ data.length) :
    (data.take 5 ≠ komapMagic → readMapFile data = .error .badMagic) ∧
    (data.take 5 = komapMagic → data.getD 5 0 ≠ 1 →
      readMapFile data = .error .badVersion) ∧
    (data.take 5 = komapMagic → data.getD 5 0 = 1 →
      data.length - 16 < hdrBitmapSize data →
      readMapFile data = .error .truncated) ∧
    (data.take 5 = komapMagic → data.getD 5 0 = 1 →
      hdrBitmapSize data ≤ data.length - 16 →
      readMapFile data = .ok ⟨hdrWidth data, hdrHeight data,
        (data.drop 16).take (hdrBitmapSize data),
        data.length - 16 - hdrBitmapSize data⟩) :=
  readMapFile_cases data h10

/-- C6 witness: a valid 1×1 map with 10 extra trailing bytes decodes
successfully, ignoring and merely counting the extra bytes. -/
theorem C6_decode_errors_witness :
    readMapFile (encodeHeader 1 1 ++ [128, 0, 0, 0, 0, 0, 0, 0, 0, 0, 0]) =
      Except.ok ⟨1, 1, [128], 10⟩ :=
  (C6_decode_errors (encodeHeader 1 1 ++ [128, 0, 0, 0, 0, 0, 0, 0, 0, 0, 0])
    (by decide)).2.2.2 (by decide) (by decide) (by decide)

/-- C7 counterexample: for the box (10,10,20,20) with margin 5 on a 100×100
image the expanded keep-out region is [5,25)×[5,25), so pixel (3,3) is not
keep-out, contradicting the claim. -/
theorem C7_counterexample :
    (buildKeepOut 100 100 5 [⟨10, 10, 20, 20⟩]).map (fun m => maskGet m 3 3) =
      some false := by
  decide

/-- C7 (amended): zero detections yield `none` (never an empty mask), and
the box (10,10,20,20) with margin 5 on a 100×100 image yields a mask in
which (5,5) is keep-out while (3,3) and (1,1) are not. -/
theorem C7_mask_builder :
    (∀ w h margin, buildKeepOut w h margin [] = none) ∧
    (buildKeepOut 100 100 5 [⟨10, 10, 20, 20⟩]).map
        (fun m => (maskGet m 5 5, maskGet m 3 3, maskGet m 1 1)) =
      some (true, false, false) := by
  refine ⟨fun w h margin => rfl, by decide⟩

set_option maxRecDepth 40000 in
/-- C8: the analyzer's coverage is `keepOutPixels / totalPixels * 100`, its
region list is sorted by area descending, and on the 8×8 mask holding two
disjoint 3×3 squares it reports exactly two regions of area 9 with
coverage `18 / (8*8) * 100`. -/
theorem C8_analyzer (w h : Nat) (data : List Nat) :
    (analyzeMap w h data).coverage =
      ((countTrue (decodeBitmap data w h) : ℚ) / ((w * h : Nat) : ℚ)) * 100 ∧
    List.Pairwise (fun a b => b.area ≤ a.area) (analyzeMap w h data).regions ∧
    (analyzeMap 8 8 [0, 112, 112, 112, 0, 7, 7, 7]).regions =
      [⟨1, 1, 3, 3, 9⟩, ⟨5, 5, 7, 7, 9⟩] ∧
    (analyzeMap 8 8 [0, 112, 112, 112, 0, 7, 7, 7]).coverage = 18 / (8 * 8) * 100 := by
  refine ⟨rfl, pairwise_sortRegionsDesc _, by decide, by with_unfolding_all rfl⟩

/-- C9: every pixel of the quantized image is one of the six fixed palette
colours: a processed cell is set to its chosen palette colour and later
steps only add error to strictly later cells in row-major order. -/
theorem C9_output_palette (img : Grid) (w h : Nat) (hwf : gridWF w h img)
    (y x : Nat) (hy : y < h) (hx : x < w) :
    ((quantizeAtkinson img).getD y []).getD x (0, 0, 0) ∈ paletteBytes :=
  quantize_pixel_palette img hwf y x hy hx

set_option maxRecDepth 40000 in
/-- C9 witness: the single pixel of the quantized 1×1 grey image is a
palette colour. -/
theorem C9_output_palette_witness :
    ((quantizeAtkinson [[⟨100, 100, 100⟩]]).getD 0 []).getD 0 (0, 0, 0) ∈ paletteBytes :=
  C9_output_palette [[⟨100, 100, 100⟩]] 1 1 (by decide) 0 0 (by decide) (by decide)

/-- C10: bitmap unpacking is total: for any data and dimensions, the
decoder returns a full height×width grid, and any pixel whose byte index
lies past the end of the data reads as safe (false). -/
theorem C10_decode_total (data : List Nat) (w h : Nat) :
    (decodeBitmap data w h).length = h ∧
    (∀ row ∈ decodeBitmap data w h, row.length = w) ∧
    (∀ y x, y < h → x < w → data.length ≤ (y * w + x) / 8 →
      ((decodeBitmap data w h).getD y []).getD x false = false) := by
  refine ⟨by simp [decodeBitmap], ?_, ?_⟩
  · intro row hrow
    rcases List.mem_map.mp hrow with ⟨y, _, rfl⟩
    simp
  · intro y x hy hx hle
    unfold decodeBitmap
    rw [getD_map_getElem _ _ _ _ (by simpa using hy)]
    rw [List.getElem_range]
    rw [getD_map_getElem _ _ _ _ (by simpa using hx)]
    rw [List.getElem_range]
    simp only [Bool.and_eq_false_imp, decide_eq_true_eq]
    intro hcontra
    omega

/-- C10 witness: with a single data byte and a 4×3 grid, the pixel (2,3)
whose byte index is 1 reads as safe. -/
theorem C10_decode_total_witness :
    ((decodeBitmap [255] 4 3).getD 2 []).getD 3 false = false :=
  (C10_decode_total [255] 4 3).2.2 2 3 (by decide) (by decide) (by decide)
